import Mathlib

/-!
Shallow embedding of the faucet request dispatcher.

Source: `src/faucet.go` (configuration flags and the `ether` unit constant)
and `src/ws.go` (`OnWebsocket`: per-iteration tier validation, rate-limit
check, payout computation, transaction submission, and commit of the
next-eligible time).

Modelling conventions:
* A point in time is `ℤ` nanoseconds since the Unix epoch.  Go's `time.Time`
  itself does not overflow in this range; the zero `time.Time` of an absent
  map entry is January 1 of year 1, i.e. `goZeroTimeNs` nanoseconds.
* Durations and the intermediate `int` values of `ws.go` line 157 are Go
  int64 values: every multiplication wraps modulo `2^64` into
  `[-2^63, 2^63)`, modelled by `wrap64`; Go's `/` on int64 truncates toward
  zero, modelled by `Int.tdiv`.
* `math.Pow(3, float64(tier))` is computed by repeated float64
  multiplication, which is exact while all intermediate powers fit the
  53-bit mantissa, i.e. for `tier ≤ 33` (`3^33 < 2^53`); beyond that the
  result is implementation-dependent and the float-to-int64 conversion can
  leave the int64 range.  The model `pow3` is therefore the exact power,
  and every theorem about the cooldown carries a `tier ≤ 33` hypothesis
  marking the faithful range (counterexamples stay inside it).
* The Go map `faucet.timeouts : map[string]time.Time` is a total function
  into `Option Time`; a read of a missing key yields the zero value,
  modelled by `getTimeout`.
* `big.Int` arithmetic cannot overflow, so it is `ℤ`; `big.Int.Div` is
  Euclidean division, which is `/` on `ℤ`.
* The `-faucet.amount` float64 flag is modelled by the rational number it
  denotes (every float64 value is a rational); Go's `int64(f)` conversion
  truncates toward zero (`truncFloat`).
* One iteration of the `OnWebsocket` read loop (`ws.go` lines 117-177) is
  the pure function `dispatch`, parameterised by the two clock readings the
  code makes (line 142 and line 160), the outcome of `SendTx`, and whether
  the reply write succeeds.  It records the trace of lock / limiter /
  submit / reply events in source order.
-/

namespace Faucet

/-- Requester identifier: `msg.URL` in `ws.go`. -/
abbrev Ident := String

/-- A point in time, in nanoseconds since the Unix epoch. -/
abbrev Time := ℤ

/-- Go's zero `time.Time` (January 1, year 1 UTC) in nanoseconds since the
Unix epoch: `-62135596800` seconds. -/
def goZeroTimeNs : ℤ := -62135596800000000000

/-- `faucet.go` line 55: `ether = 1000_000_000_000_000_000`, the token's
smallest-unit scale (10^18). -/
def ether : ℕ := 1000000000000000000

/-- Go's `int64(f)` conversion of a `float64`: truncation toward zero.  The
float value is modelled by the rational it denotes. -/
def truncFloat (q : ℚ) : ℤ := Int.tdiv q.num (q.den : ℤ)

/-- `ws.go` lines 144-146: the submitted amount computed with `big.Int`
(arbitrary precision, no overflow): `int64(*payoutFlag) * ether`, times
`5^tier`, divided by `2^tier`.  `big.Int.Div` is Euclidean division, which
is `/` on `ℤ`. -/
def payoutAmount (base : ℤ) (tier : ℕ) : ℤ :=
  base * (ether : ℤ) * 5 ^ tier / 2 ^ tier

/-- `time.Minute` in nanoseconds. -/
def minuteNs : ℤ := 60000000000

/-- Go int64 two's-complement wraparound: the value of an int64 expression
whose mathematical value is `x`. -/
def wrap64 (x : ℤ) : ℤ := (x + 2 ^ 63) % 2 ^ 64 - 2 ^ 63

/-- The value of `int(math.Pow(3, float64(tier)))` at `ws.go` line 157.
Go computes the integral power by repeated float64 squaring, exact while
every intermediate power fits the 53-bit mantissa, so this model is
faithful for `tier ≤ 33` (`3^33 < 2^53 < 2^63`, so the int64 conversion is
also in range); theorems about the cooldown carry that hypothesis. -/
def pow3 (tier : ℕ) : ℤ := 3 ^ tier

/-- `ws.go` line 157: `*minutesFlag * int(math.Pow(3, float64(msg.Tier)))` —
an int64 multiplication, which wraps. -/
def cooldownMinutes (minutes tier : ℕ) : ℤ := wrap64 ((minutes : ℤ) * pow3 tier)

/-- `ws.go` line 157: the cooldown converted to a `time.Duration` and
multiplied by `time.Minute` — int64 again, so it wraps (for the default
1440 minutes this happens from tier 11 on). -/
def timeoutDur (minutes tier : ℕ) : ℤ := wrap64 (cooldownMinutes minutes tier * minuteNs)

/-- `ws.go` line 158: `grace := timeout / 288` — int64 division, truncation
toward zero. -/
def graceDur (minutes tier : ℕ) : ℤ := Int.tdiv (timeoutDur minutes tier) 288

/-- `ws.go` line 160: the int64 duration `timeout - grace` added to
`time.Now()`. -/
def commitOffset (minutes tier : ℕ) : ℤ :=
  wrap64 (timeoutDur minutes tier - graceDur minutes tier)

/-- The startup configuration: `*tiersFlag`, `*payoutFlag` (a float64,
modelled as the rational it denotes) and `*minutesFlag`. -/
structure Config where
  tiers : ℕ
  payoutF : ℚ
  minutes : ℕ

/-- The `faucet.timeouts` map. -/
abbrev Timeouts := Ident → Option Time

/-- A Go map read `faucet.timeouts[url]`: the zero `time.Time` when absent. -/
def getTimeout (m : Timeouts) (id : Ident) : Time := (m id).getD goZeroTimeNs

/-- A Go map write `faucet.timeouts[url] = t`. -/
def setTimeout (m : Timeouts) (id : Ident) (t : Time) : Timeouts :=
  fun j => if j = id then some t else m j

/-- `ws.go` line 142: `time.Now().After(timeout)` — Go's `After` is a strict
comparison, true only when `now` is strictly later than the stored time. -/
def eligibleCheck (m : Timeouts) (id : Ident) (now : Time) : Bool :=
  getTimeout m id < now

/-- The observable events of one dispatch iteration, in source order:
acquiring/releasing `faucet.lock`, reading/writing `faucet.timeouts`,
calling `SendTx`, and writing the reply. -/
inductive Event where
  | lockAcquire
  | lockRelease
  | limiterRead
  | limiterWrite
  | submitCall
  | replySend
deriving DecidableEq

/-- The reply built for the client.  `errRateLimited` carries the stored
next-eligible time; its human-readable `PrettyDuration` text (ws.go line
167) is presentation only and not modelled. -/
inductive Reply where
  | err (s : String)
  | errRateLimited (stored : Time)
  | success (s : String)
deriving DecidableEq

/-- The outcome of one iteration of the `OnWebsocket` loop. -/
structure StepResult where
  timeouts : Timeouts
  reply : Reply
  keepOpen : Bool
  submitted : Option ℤ
  events : List Event

/-- One iteration of the `OnWebsocket` read loop, `ws.go` lines 127-177.
`nowCheck` is the clock reading of line 142, `nowCommit` the one of line
160; `submitErr` is `SendTx`'s result (`none` = success); `sendOk` tells
whether the reply write succeeded (on failure the handler returns, closing
the connection). -/
def dispatch (cfg : Config) (m : Timeouts) (url : Ident) (tier : ℕ)
    (nowCheck nowCommit : Time) (submitErr : Option String) (sendOk : Bool) :
    StepResult :=
  if cfg.tiers ≤ tier then
    -- lines 127-134: invalid tier, reply and continue; no lock, no limiter
    { timeouts := m
      reply := Reply.err "Invalid funding tier requested"
      keepOpen := sendOk
      submitted := none
      events := [Event.replySend] }
  else if eligibleCheck m url nowCheck then
    -- lines 144-146: the payout amount handed to SendTx
    let amount := payoutAmount (truncFloat cfg.payoutF) tier
    match submitErr with
    | some e =>
      -- lines 149-156: submission failed; unlock, reply error, continue
      { timeouts := m
        reply := Reply.err e
        keepOpen := sendOk
        submitted := some amount
        events := [Event.lockAcquire, Event.limiterRead, Event.submitCall,
                   Event.lockRelease, Event.replySend] }
    | none =>
      -- lines 157-161: commit now + timeout - grace, unlock, reply success
      let next := nowCommit + commitOffset cfg.minutes tier
      { timeouts := setTimeout m url next
        reply := Reply.success ("Funding request accepted for Faucet into " ++ url)
        keepOpen := sendOk
        submitted := some amount
        events := [Event.lockAcquire, Event.limiterRead, Event.submitCall,
                   Event.limiterWrite, Event.lockRelease, Event.replySend] }
  else
    -- lines 163-171: too recent; unlock, reply remaining-wait error, continue
    { timeouts := m
      reply := Reply.errRateLimited (getTimeout m url)
      keepOpen := sendOk
      submitted := none
      events := [Event.lockAcquire, Event.limiterRead, Event.lockRelease,
                 Event.replySend] }

/-- Whether `target` occurs in the trace at a point where the lock depth is
positive (only meaningful for targets other than the lock events). -/
def occursLocked (target : Event) : List Event → ℕ → Bool
  | [], _ => false
  | Event.lockAcquire :: es, d => occursLocked target es (d + 1)
  | Event.lockRelease :: es, d => occursLocked target es (d - 1)
  | e :: es, d => (e == target && decide (0 < d)) || occursLocked target es d

/-- A concrete rational one half, for exercising the float truncation. -/
def halfQ : ℚ := ⟨1, 2, by decide, by decide⟩

end Faucet

namespace Faucet

lemma dispatch_invalid_eq (cfg : Config) (m : Timeouts) (url : Ident) (tier : ℕ)
    (n1 n2 : Time) (se : Option String) (so : Bool) (hT : cfg.tiers ≤ tier) :
    dispatch cfg m url tier n1 n2 se so =
      { timeouts := m
        reply := Reply.err "Invalid funding tier requested"
        keepOpen := so
        submitted := none
        events := [Event.replySend] } := by
  simp [dispatch, hT]

lemma dispatch_ineligible_eq (cfg : Config) (m : Timeouts) (url : Ident) (tier : ℕ)
    (n1 n2 : Time) (se : Option String) (so : Bool)
    (hT : tier < cfg.tiers) (hE : eligibleCheck m url n1 = false) :
    dispatch cfg m url tier n1 n2 se so =
      { timeouts := m
        reply := Reply.errRateLimited (getTimeout m url)
        keepOpen := so
        submitted := none
        events := [Event.lockAcquire, Event.limiterRead, Event.lockRelease,
                   Event.replySend] } := by
  simp [dispatch, Nat.not_le.mpr hT, hE]

lemma dispatch_fail_eq (cfg : Config) (m : Timeouts) (url : Ident) (tier : ℕ)
    (n1 n2 : Time) (e : String) (so : Bool)
    (hT : tier < cfg.tiers) (hE : eligibleCheck m url n1 = true) :
    dispatch cfg m url tier n1 n2 (some e) so =
      { timeouts := m
        reply := Reply.err e
        keepOpen := so
        submitted := some (payoutAmount (truncFloat cfg.payoutF) tier)
        events := [Event.lockAcquire, Event.limiterRead, Event.submitCall,
                   Event.lockRelease, Event.replySend] } := by
  simp [dispatch, Nat.not_le.mpr hT, hE]

lemma dispatch_success_eq (cfg : Config) (m : Timeouts) (url : Ident) (tier : ℕ)
    (n1 n2 : Time) (so : Bool)
    (hT : tier < cfg.tiers) (hE : eligibleCheck m url n1 = true) :
    dispatch cfg m url tier n1 n2 none so =
      { timeouts := setTimeout m url (n2 + commitOffset cfg.minutes tier)
        reply := Reply.success ("Funding request accepted for Faucet into " ++ url)
        keepOpen := so
        submitted := some (payoutAmount (truncFloat cfg.payoutF) tier)
        events := [Event.lockAcquire, Event.limiterRead, Event.submitCall,
                   Event.limiterWrite, Event.lockRelease, Event.replySend] } := by
  simp [dispatch, Nat.not_le.mpr hT, hE]

/-- Exactness core: for tiers up to 18 the `big.Int` division by `2^tier`
is exact, because `ether = 10^18` contributes a factor `2^18`. -/
lemma payout_mul_pow (b : ℤ) (t : ℕ) (ht : t ≤ 18) :
    payoutAmount b t * 2 ^ t = b * (ether : ℤ) * 5 ^ t := by
  have he : ((ether : ℕ) : ℤ) = 2 ^ 18 * 5 ^ 18 := by norm_num [ether]
  have hd : (2 : ℤ) ^ t ∣ b * (ether : ℤ) * 5 ^ t := by
    have h1 : (2 : ℤ) ^ t ∣ 2 ^ 18 := pow_dvd_pow 2 ht
    have h2 : (2 : ℤ) ^ t ∣ (ether : ℤ) := by
      rw [he]
      exact h1.mul_right _
    exact (h2.mul_left b).mul_right _
  rw [payoutAmount]
  exact Int.ediv_mul_cancel hd

/-- An int64 expression whose value already lies in `[-2^63, 2^63)` does
not wrap. -/
lemma wrap64_eq_self {x : ℤ} (h1 : -(2 ^ 63) ≤ x) (h2 : x < 2 ^ 63) :
    wrap64 x = x := by
  have h0 : (0 : ℤ) ≤ x + 2 ^ 63 := by linarith
  have he : (2 : ℤ) ^ 64 = 2 ^ 63 + 2 ^ 63 := by norm_num
  have h3 : x + 2 ^ 63 < 2 ^ 64 := by linarith
  unfold wrap64
  rw [Int.emod_eq_of_lt h0 h3]
  ring

/-- If the full nanosecond product fits int64, so does the minute count. -/
lemma cooldown_fits_mul {minutes tier : ℕ}
    (h : (minutes : ℤ) * 3 ^ tier * minuteNs < 2 ^ 63) :
    (minutes : ℤ) * 3 ^ tier < 2 ^ 63 := by
  have hmn : (0 : ℤ) ≤ (minutes : ℤ) * 3 ^ tier := by positivity
  have hle : (minutes : ℤ) * 3 ^ tier ≤ (minutes : ℤ) * 3 ^ tier * minuteNs :=
    le_mul_of_one_le_right hmn (by norm_num [minuteNs])
  linarith

lemma cooldownMinutes_eq {minutes tier : ℕ}
    (h : (minutes : ℤ) * 3 ^ tier * minuteNs < 2 ^ 63) :
    cooldownMinutes minutes tier = (minutes : ℤ) * 3 ^ tier := by
  have hmn : (0 : ℤ) ≤ (minutes : ℤ) * 3 ^ tier := by positivity
  simp only [cooldownMinutes, pow3]
  exact wrap64_eq_self (by linarith) (cooldown_fits_mul h)

lemma timeoutDur_eq {minutes tier : ℕ}
    (h : (minutes : ℤ) * 3 ^ tier * minuteNs < 2 ^ 63) :
    timeoutDur minutes tier = (minutes : ℤ) * 3 ^ tier * minuteNs := by
  have hmn : (0 : ℤ) ≤ (minutes : ℤ) * 3 ^ tier := by positivity
  have hC0 : (0 : ℤ) ≤ (minutes : ℤ) * 3 ^ tier * minuteNs :=
    mul_nonneg hmn (by norm_num [minuteNs])
  simp only [timeoutDur]
  rw [cooldownMinutes_eq h]
  exact wrap64_eq_self (by linarith) h

lemma graceDur_eq {minutes tier : ℕ}
    (h : (minutes : ℤ) * 3 ^ tier * minuteNs < 2 ^ 63) :
    graceDur minutes tier
      = Int.tdiv ((minutes : ℤ) * 3 ^ tier * minuteNs) 288 := by
  simp only [graceDur]
  rw [timeoutDur_eq h]

lemma commitOffset_eq {minutes tier : ℕ}
    (h : (minutes : ℤ) * 3 ^ tier * minuteNs < 2 ^ 63) :
    commitOffset minutes tier
      = (minutes : ℤ) * 3 ^ tier * minuteNs
        - Int.tdiv ((minutes : ℤ) * 3 ^ tier * minuteNs) 288 := by
  have hmn : (0 : ℤ) ≤ (minutes : ℤ) * 3 ^ tier := by positivity
  have hC0 : (0 : ℤ) ≤ (minutes : ℤ) * 3 ^ tier * minuteNs :=
    mul_nonneg hmn (by norm_num [minuteNs])
  have ht0 : (0 : ℤ) ≤ Int.tdiv ((minutes : ℤ) * 3 ^ tier * minuteNs) 288 :=
    Int.tdiv_nonneg hC0 (by norm_num)
  have htC : Int.tdiv ((minutes : ℤ) * 3 ^ tier * minuteNs) 288
      ≤ (minutes : ℤ) * 3 ^ tier * minuteNs := by
    rw [Int.tdiv_eq_ediv hC0 (by norm_num)]
    exact Int.ediv_le_self 288 hC0
  simp only [commitOffset]
  rw [timeoutDur_eq h, graceDur_eq h]
  exact wrap64_eq_self (by linarith) (by linarith)

/-- In the non-wrapping range the committed offset is nonnegative. -/
lemma commitOffset_nonneg {minutes tier : ℕ}
    (h : (minutes : ℤ) * 3 ^ tier * minuteNs < 2 ^ 63) :
    0 ≤ commitOffset minutes tier := by
  have hmn : (0 : ℤ) ≤ (minutes : ℤ) * 3 ^ tier := by positivity
  have hC0 : (0 : ℤ) ≤ (minutes : ℤ) * 3 ^ tier * minuteNs :=
    mul_nonneg hmn (by norm_num [minuteNs])
  have htC : Int.tdiv ((minutes : ℤ) * 3 ^ tier * minuteNs) 288
      ≤ (minutes : ℤ) * 3 ^ tier * minuteNs := by
    rw [Int.tdiv_eq_ediv hC0 (by norm_num)]
    exact Int.ediv_le_self 288 hC0
  rw [commitOffset_eq h]
  linarith

/-- Reading the just-written entry compares against the committed value. -/
lemma eligibleCheck_setTimeout_self (m : Timeouts) (url : Ident) (v x : Time) :
    eligibleCheck (setTimeout m url v) url x = decide (v < x) := by
  simp [eligibleCheck, getTimeout, setTimeout]

end Faucet

namespace Faucet

/-- C4: if the transaction submission fails, the timeout map is left exactly
as it was before the request (no cooldown consumed), the client receives an
error reply carrying the submitter's error message, and (the reply write
succeeding) the connection stays open. -/
theorem submit_failure_preserves :
    ∀ (cfg : Config) (m : Timeouts) (url : Ident) (tier : ℕ) (n1 n2 : Time)
      (e : String),
      tier < cfg.tiers → eligibleCheck m url n1 = true →
      (dispatch cfg m url tier n1 n2 (some e) true).timeouts = m
      ∧ (dispatch cfg m url tier n1 n2 (some e) true).reply = Reply.err e
      ∧ (dispatch cfg m url tier n1 n2 (some e) true).keepOpen = true := by
  intro cfg m url tier n1 n2 e hT hE
  rw [dispatch_fail_eq cfg m url tier n1 n2 e true hT hE]
  exact ⟨rfl, rfl, rfl⟩

/-- Witness for C4 at a concrete input. -/
theorem submit_failure_preserves_witness :
    (0 : ℕ) < 2 ∧ eligibleCheck (fun _ => none) "gina" 1 = true ∧
    ((dispatch ⟨2, 1, 1440⟩ (fun _ => none) "gina" 0 1 2 (some "no gas") true).timeouts
        = (fun _ => none)
      ∧ (dispatch ⟨2, 1, 1440⟩ (fun _ => none) "gina" 0 1 2 (some "no gas") true).reply
        = Reply.err "no gas"
      ∧ (dispatch ⟨2, 1, 1440⟩ (fun _ => none) "gina" 0 1 2 (some "no gas") true).keepOpen
        = true) :=
  ⟨by decide, by decide,
   submit_failure_preserves ⟨2, 1, 1440⟩ (fun _ => none) "gina" 0 1 2 "no gas"
     (by decide) (by decide)⟩

/-- C5 is false as stated: with 12 tiers configured and the default 1440
base minutes, tier 11's int64 duration computation wraps to a negative
value, so the program commits a time strictly before the commit-instant
`now` — not `now + cooldown - grace`, which would lie far in the future. -/
theorem commit_wrap_cex :
    (dispatch ⟨12, 1, 1440⟩ (fun _ => none) "mia" 11 1 2 none true).timeouts "mia"
      = some (2 + commitOffset 1440 11)
    ∧ commitOffset 1440 11 < 0
    ∧ commitOffset 1440 11
        ≠ (1440 : ℤ) * 3 ^ 11 * minuteNs
          - Int.tdiv ((1440 : ℤ) * 3 ^ 11 * minuteNs) 288 := by
  refine ⟨rfl, by decide, by decide⟩

/-- C5 (amended): after a successful submission the program commits
`nowCommit + commitOffset`, the wrapped int64 value of `timeout - grace`;
whenever `tier ≤ 33` (so `math.Pow` is exact) and the nanosecond cooldown
fits int64, that offset equals `cooldown - cooldown/288` with truncating
integer division, and with `baseCooldownMinutes = 1440` at tier 0 the
commit is `nowCommit + 1435` minutes.  Outside that range the int64
arithmetic wraps (see the counterexample). -/
theorem commit_next_eligible :
    ∀ (cfg : Config) (m : Timeouts) (url : Ident) (tier : ℕ) (n1 n2 : Time),
      tier < cfg.tiers → eligibleCheck m url n1 = true →
      ((dispatch cfg m url tier n1 n2 none true).timeouts url
        = some (n2 + commitOffset cfg.minutes tier))
      ∧ (tier ≤ 33 → (cfg.minutes : ℤ) * 3 ^ tier * minuteNs < 2 ^ 63 →
          commitOffset cfg.minutes tier
            = (cfg.minutes : ℤ) * 3 ^ tier * minuteNs
              - Int.tdiv ((cfg.minutes : ℤ) * 3 ^ tier * minuteNs) 288)
      ∧ (cfg.minutes = 1440 → tier = 0 →
          (dispatch cfg m url tier n1 n2 none true).timeouts url
            = some (n2 + 1435 * minuteNs)) := by
  intro cfg m url tier n1 n2 hT hE
  refine ⟨?_, fun _ hfit => commitOffset_eq hfit, ?_⟩
  · rw [dispatch_success_eq cfg m url tier n1 n2 true hT hE]
    simp [setTimeout]
  · intro hm h0
    subst h0
    rw [dispatch_success_eq cfg m url 0 n1 n2 true hT hE]
    have hco : commitOffset 1440 0 = 1435 * minuteNs := by decide
    simp only [setTimeout, if_pos]
    rw [hm, hco]

/-- Witness for the amended C5 at a concrete input. -/
theorem commit_next_eligible_witness :
    (0 : ℕ) < 2 ∧ eligibleCheck (fun _ => none) "frank" 1 = true ∧
    (dispatch ⟨2, 1, 1440⟩ (fun _ => none) "frank" 0 1 2 none true).timeouts "frank"
      = some (2 + 1435 * minuteNs) :=
  ⟨by decide, by decide,
   (commit_next_eligible ⟨2, 1, 1440⟩ (fun _ => none) "frank" 0 1 2
     (by decide) (by decide)).2.2 rfl rfl⟩

/-- C6 is false as stated: with the default 1440 base minutes the tier-11
cooldown duration wraps int64 and comes out negative, not
`1440 * 3^11` minutes. -/
theorem cooldown_wrap_cex :
    timeoutDur 1440 11 < 0
    ∧ timeoutDur 1440 11 ≠ (1440 : ℤ) * 3 ^ 11 * minuteNs := by
  exact ⟨by decide, by decide⟩

/-- C6 (amended): whenever `tier ≤ 33` (`math.Pow` exact) and the
nanosecond product fits int64, the cooldown duration is exactly
`baseCooldownMinutes * 3^tier` minutes, and it triples from tier
`tier - 1` to tier `tier`; outside that range the int64 multiply wraps
(see the counterexample). -/
theorem cooldown_exponential :
    ∀ (minutes tier : ℕ),
      (tier ≤ 33 → (minutes : ℤ) * 3 ^ tier * minuteNs < 2 ^ 63 →
        timeoutDur minutes tier = (minutes : ℤ) * 3 ^ tier * minuteNs)
      ∧ (1 ≤ tier → tier ≤ 33 → (minutes : ℤ) * 3 ^ tier * minuteNs < 2 ^ 63 →
          timeoutDur minutes tier = timeoutDur minutes (tier - 1) * 3) := by
  intro minutes tier
  refine ⟨fun _ hfit => timeoutDur_eq hfit, fun h1 _ hfit => ?_⟩
  obtain ⟨k, rfl⟩ : ∃ k, tier = k + 1 := ⟨tier - 1, by omega⟩
  have hmn : (0 : ℤ) ≤ (minutes : ℤ) * 3 ^ k := by positivity
  have hC0 : (0 : ℤ) ≤ (minutes : ℤ) * 3 ^ k * minuteNs :=
    mul_nonneg hmn (by norm_num [minuteNs])
  have hstep : (minutes : ℤ) * 3 ^ (k + 1) * minuteNs
      = (minutes : ℤ) * 3 ^ k * minuteNs * 3 := by
    rw [pow_succ]
    ring
  have hfitk : (minutes : ℤ) * 3 ^ k * minuteNs < 2 ^ 63 := by
    rw [hstep] at hfit
    linarith
  rw [timeoutDur_eq hfit, Nat.add_sub_cancel, timeoutDur_eq hfitk, hstep]

/-- Witness for the amended C6 at a concrete input. -/
theorem cooldown_exponential_witness :
    timeoutDur 1440 1 = ((1440 : ℕ) : ℤ) * 3 ^ 1 * minuteNs
    ∧ timeoutDur 1440 1 = timeoutDur 1440 (1 - 1) * 3 :=
  ⟨(cooldown_exponential 1440 1).1 (by decide) (by decide),
   (cooldown_exponential 1440 1).2 (by decide) (by decide) (by decide)⟩

/-- C7 is false as stated: the error string sent for an out-of-range tier is
capitalised "Invalid funding tier requested" (ws.go line 129), not
"invalid funding tier requested" as the claim quotes it. -/
theorem invalid_tier_message_cex :
    (dispatch ⟨2, 1, 1440⟩ (fun _ => none) "dave" 7 1 1 none true).reply
      = Reply.err "Invalid funding tier requested"
    ∧ (dispatch ⟨2, 1, 1440⟩ (fun _ => none) "dave" 7 1 1 none true).reply
      ≠ Reply.err "invalid funding tier requested" := by
  constructor
  · rfl
  · decide

/-- C7 (amended): a request whose tier is at or above the configured tier
count is answered with the error "Invalid funding tier requested" (capital
I), the timeout map is untouched, nothing is submitted, the only event is
the reply write (no lock, no rate-limiter access), and — the reply write
succeeding — the connection stays open. -/
theorem invalid_tier_rejected :
    ∀ (cfg : Config) (m : Timeouts) (url : Ident) (tier : ℕ) (n1 n2 : Time)
      (se : Option String),
      cfg.tiers ≤ tier →
      (dispatch cfg m url tier n1 n2 se true).reply
        = Reply.err "Invalid funding tier requested"
      ∧ (dispatch cfg m url tier n1 n2 se true).timeouts = m
      ∧ (dispatch cfg m url tier n1 n2 se true).submitted = none
      ∧ (dispatch cfg m url tier n1 n2 se true).events = [Event.replySend]
      ∧ (dispatch cfg m url tier n1 n2 se true).keepOpen = true := by
  intro cfg m url tier n1 n2 se hT
  rw [dispatch_invalid_eq cfg m url tier n1 n2 se true hT]
  exact ⟨rfl, rfl, rfl, rfl, rfl⟩

/-- Witness for the amended C7 at a concrete input. -/
theorem invalid_tier_rejected_witness :
    (2 : ℕ) ≤ 9 ∧
    ((dispatch ⟨2, 1, 1440⟩ (fun _ => none) "hank" 9 1 1 none true).reply
        = Reply.err "Invalid funding tier requested"
      ∧ (dispatch ⟨2, 1, 1440⟩ (fun _ => none) "hank" 9 1 1 none true).timeouts
        = (fun _ => none)
      ∧ (dispatch ⟨2, 1, 1440⟩ (fun _ => none) "hank" 9 1 1 none true).submitted = none
      ∧ (dispatch ⟨2, 1, 1440⟩ (fun _ => none) "hank" 9 1 1 none true).events
        = [Event.replySend]
      ∧ (dispatch ⟨2, 1, 1440⟩ (fun _ => none) "hank" 9 1 1 none true).keepOpen = true) :=
  ⟨by decide,
   invalid_tier_rejected ⟨2, 1, 1440⟩ (fun _ => none) "hank" 9 1 1 none (by decide)⟩

end Faucet

namespace Faucet

/-- C1 is false as stated: with a stored next-eligible-time of 100, a request
at exactly time 100 (which is "at" the stored time) is rejected with a
rate-limit error, because `time.Now().After` is a strict comparison. -/
theorem rateCheck_boundary_cex :
    getTimeout (setTimeout (fun _ => none) "alice" 100) "alice" ≤ 100
    ∧ (dispatch ⟨2, 1, 1440⟩ (setTimeout (fun _ => none) "alice" 100)
        "alice" 0 100 100 none true).reply = Reply.errRateLimited 100 := by
  constructor
  · decide
  · rfl

/-- C1 (amended): a request is allowed iff the identifier has no stored
entry (and the clock is past Go's zero time) or the current time is
strictly after the stored next-eligible time.  After a successful funding
committed at time `T`, requests at the committed next-eligible time
`T + commitOffset` and one tick before it are rejected, and at
`T + commitOffset + 1` the request is allowed; when `tier ≤ 33` and the
nanosecond cooldown fits int64, `commitOffset` is exactly
`cooldown - grace`. -/
theorem rateCheck_strict_after :
    ∀ (cfg : Config) (m : Timeouts) (url : Ident) (tier : ℕ) (n1 n2 : Time),
      tier < cfg.tiers → eligibleCheck m url n1 = true →
      (eligibleCheck (dispatch cfg m url tier n1 n2 none true).timeouts url
          (n2 + commitOffset cfg.minutes tier - 1) = false
        ∧ eligibleCheck (dispatch cfg m url tier n1 n2 none true).timeouts url
          (n2 + commitOffset cfg.minutes tier) = false
        ∧ eligibleCheck (dispatch cfg m url tier n1 n2 none true).timeouts url
          (n2 + commitOffset cfg.minutes tier + 1) = true)
      ∧ (tier ≤ 33 → (cfg.minutes : ℤ) * 3 ^ tier * minuteNs < 2 ^ 63 →
          commitOffset cfg.minutes tier
            = (cfg.minutes : ℤ) * 3 ^ tier * minuteNs
              - Int.tdiv ((cfg.minutes : ℤ) * 3 ^ tier * minuteNs) 288)
      ∧ (∀ (w : Timeouts) (id : Ident) (now : Time),
          eligibleCheck w id now = true ↔
            (w id = none ∧ goZeroTimeNs < now) ∨ ∃ s, w id = some s ∧ s < now) := by
  intro cfg m url tier n1 n2 hT hE
  refine ⟨?_, fun _ hfit => commitOffset_eq hfit, ?_⟩
  · rw [dispatch_success_eq cfg m url tier n1 n2 true hT hE]
    refine ⟨?_, ?_, ?_⟩
    · rw [eligibleCheck_setTimeout_self]
      exact decide_eq_false (by linarith)
    · rw [eligibleCheck_setTimeout_self]
      exact decide_eq_false (by linarith)
    · rw [eligibleCheck_setTimeout_self]
      exact decide_eq_true (by linarith)
  · intro w id now
    cases h : w id with
    | none => simp [eligibleCheck, getTimeout, h]
    | some s => simp [eligibleCheck, getTimeout, h]

/-- Witness for the amended C1 at a concrete input. -/
theorem rateCheck_strict_after_witness :
    (0 : ℕ) < 2 ∧ eligibleCheck (fun _ => none) "judy" 3 = true ∧
    (eligibleCheck (dispatch ⟨2, 1, 1440⟩ (fun _ => none) "judy" 0 3 4 none true).timeouts
        "judy" (4 + commitOffset 1440 0) = false
      ∧ eligibleCheck (dispatch ⟨2, 1, 1440⟩ (fun _ => none) "judy" 0 3 4 none true).timeouts
        "judy" (4 + commitOffset 1440 0 + 1) = true)
    ∧ commitOffset 1440 0
        = ((1440 : ℕ) : ℤ) * 3 ^ 0 * minuteNs
          - Int.tdiv (((1440 : ℕ) : ℤ) * 3 ^ 0 * minuteNs) 288 :=
  ⟨by decide, by decide,
   ⟨((rateCheck_strict_after ⟨2, 1, 1440⟩ (fun _ => none) "judy" 0 3 4
       (by decide) (by decide)).1).2.1,
    ((rateCheck_strict_after ⟨2, 1, 1440⟩ (fun _ => none) "judy" 0 3 4
       (by decide) (by decide)).1).2.2⟩,
   (rateCheck_strict_after ⟨2, 1, 1440⟩ (fun _ => none) "judy" 0 3 4
       (by decide) (by decide)).2.1 (by decide) (by decide)⟩

/-- C2 is false as stated: in an eligible dispatch iteration the shared lock
taken at ws.go line 137 is still held when `SendTx` is called at line 149 —
the submit event occurs at positive lock depth. -/
theorem lock_across_submit_cex :
    occursLocked Event.submitCall
      (dispatch ⟨2, 1, 1440⟩ (fun _ => none) "kate" 0 1 2 none true).events 0 = true := by
  rfl

/-- C2 (amended): whenever an iteration calls the submitter, the shared lock
is held across that call (it is released only afterwards: before the error
reply on failure, or after committing the next-eligible time on success);
the reply itself is always sent with the lock released. -/
theorem lock_across_submit :
    ∀ (cfg : Config) (m : Timeouts) (url : Ident) (tier : ℕ) (n1 n2 : Time)
      (se : Option String) (so : Bool),
      (Event.submitCall ∈ (dispatch cfg m url tier n1 n2 se so).events →
        occursLocked Event.submitCall (dispatch cfg m url tier n1 n2 se so).events 0 = true)
      ∧ occursLocked Event.replySend (dispatch cfg m url tier n1 n2 se so).events 0 = false := by
  intro cfg m url tier n1 n2 se so
  by_cases hT : cfg.tiers ≤ tier
  · rw [dispatch_invalid_eq cfg m url tier n1 n2 se so hT]
    refine ⟨fun h => absurd h ?_, rfl⟩
    show Event.submitCall ∉ [Event.replySend]
    decide
  · have hT' : tier < cfg.tiers := Nat.not_le.mp hT
    by_cases hE : eligibleCheck m url n1 = true
    · cases se with
      | some e =>
        rw [dispatch_fail_eq cfg m url tier n1 n2 e so hT' hE]
        exact ⟨fun _ => rfl, rfl⟩
      | none =>
        rw [dispatch_success_eq cfg m url tier n1 n2 so hT' hE]
        exact ⟨fun _ => rfl, rfl⟩
    · have hE' : eligibleCheck m url n1 = false := by simpa using hE
      rw [dispatch_ineligible_eq cfg m url tier n1 n2 se so hT' hE']
      refine ⟨fun h => absurd h ?_, rfl⟩
      show Event.submitCall ∉
        [Event.lockAcquire, Event.limiterRead, Event.lockRelease, Event.replySend]
      decide

/-- Witness for the amended C2 at a concrete input. -/
theorem lock_across_submit_witness :
    occursLocked Event.submitCall
      (dispatch ⟨2, 1, 1440⟩ (fun _ => none) "liam" 0 1 2 (some "boom") true).events 0 = true
    ∧ occursLocked Event.replySend
      (dispatch ⟨2, 1, 1440⟩ (fun _ => none) "liam" 0 1 2 (some "boom") true).events 0 = false :=
  ⟨(lock_across_submit ⟨2, 1, 1440⟩ (fun _ => none) "liam" 0 1 2 (some "boom") true).1
     (by decide),
   (lock_across_submit ⟨2, 1, 1440⟩ (fun _ => none) "liam" 0 1 2 (some "boom") true).2⟩

/-- C8 is false as stated: fund "noa" at tier 0 (stored becomes the check
time plus 1435 minutes), then fund again at tier 11 with 12 tiers
configured — the wrapped negative int64 duration commits a time about a
century in the past, strictly earlier than the previously stored value.
The clock readings are nondecreasing throughout (1, 2, then 10^14). -/
theorem timeout_monotone_cex :
    getTimeout
      ((dispatch ⟨12, 1, 1440⟩
        ((dispatch ⟨12, 1, 1440⟩ (fun _ => none) "noa" 0 1 2 none true).timeouts)
        "noa" 11 100000000000000 100000000000000 none true).timeouts) "noa"
    < getTimeout ((dispatch ⟨12, 1, 1440⟩ (fun _ => none) "noa" 0 1 2 none true).timeouts)
        "noa" := by
  decide

/-- C8 (amended): a dispatch iteration never moves an identifier's stored
next-eligible time backward, provided the clock does not run backward
between the eligibility check and the commit and the requested tier lies in
the range where the int64 duration arithmetic does not wrap (`tier ≤ 33`
and the nanosecond cooldown below `2^63`); outside that range a wrapped
negative duration can move it backward (see the counterexample). -/
theorem timeout_monotone :
    ∀ (cfg : Config) (m : Timeouts) (url : Ident) (tier : ℕ) (n1 n2 : Time)
      (se : Option String) (so : Bool),
      n1 ≤ n2 → tier ≤ 33 →
      (cfg.minutes : ℤ) * 3 ^ tier * minuteNs < 2 ^ 63 →
      ∀ id, getTimeout m id ≤ getTimeout (dispatch cfg m url tier n1 n2 se so).timeouts id := by
  intro cfg m url tier n1 n2 se so h12 h33 hfit id
  by_cases hT : cfg.tiers ≤ tier
  · rw [dispatch_invalid_eq cfg m url tier n1 n2 se so hT]
  · have hT' : tier < cfg.tiers := Nat.not_le.mp hT
    by_cases hE : eligibleCheck m url n1 = true
    · cases se with
      | some e => rw [dispatch_fail_eq cfg m url tier n1 n2 e so hT' hE]
      | none =>
        rw [dispatch_success_eq cfg m url tier n1 n2 so hT' hE]
        have hlt : (m url).getD goZeroTimeNs < n1 := by
          simpa [eligibleCheck, getTimeout] using hE
        have hoff : 0 ≤ commitOffset cfg.minutes tier := commitOffset_nonneg hfit
        by_cases hid : id = url
        · subst hid
          simp [getTimeout, setTimeout]
          linarith
        · simp [getTimeout, setTimeout, hid]
    · have hE' : eligibleCheck m url n1 = false := by simpa using hE
      rw [dispatch_ineligible_eq cfg m url tier n1 n2 se so hT' hE']

/-- Witness for the amended C8 at a concrete input. -/
theorem timeout_monotone_witness :
    (1 : ℤ) ≤ 2 ∧ (0 : ℕ) ≤ 33
    ∧ ((1440 : ℕ) : ℤ) * 3 ^ 0 * minuteNs < 2 ^ 63
    ∧ getTimeout (fun _ => none) "ivy"
      ≤ getTimeout (dispatch ⟨2, 1, 1440⟩ (fun _ => none) "ivy" 0 1 2 none true).timeouts "ivy" :=
  ⟨by decide, by decide, by decide,
   timeout_monotone ⟨2, 1, 1440⟩ (fun _ => none) "ivy" 0 1 2 none true
     (by decide) (by decide) (by decide) "ivy"⟩

end Faucet

namespace Faucet

/-- C3 is false as stated: at tier 19 (valid under a configured tier count of
20) the division by `2^19` is no longer exact — `10^18` only contributes
`2^18` — so the submitted amount differs from the exact rational
`basePayout * 10^18 * 5^19 / 2^19`. -/
theorem payout_exact_cex :
    payoutAmount 1 19 * 2 ^ 19 ≠ 1 * (ether : ℤ) * 5 ^ 19 := by decide

/-- C3 (amended): the dispatcher hands the submitter exactly
`payoutAmount (truncFloat basePayout) tier`, and for every base and every
tier `t ≤ 18` that amount times `2^t` equals `base * 10^18 * 5^t` — i.e.
the integer division is exact and the payout equals
`basePayout * 5^t / 2^t` in token units with no rounding.  Beyond tier 18
the division truncates. -/
theorem payout_exact :
    ∀ (cfg : Config) (m : Timeouts) (url : Ident) (tier : ℕ) (n1 n2 : Time)
      (se : Option String) (so : Bool),
      tier < cfg.tiers → eligibleCheck m url n1 = true →
      ((dispatch cfg m url tier n1 n2 se so).submitted
          = some (payoutAmount (truncFloat cfg.payoutF) tier))
      ∧ ∀ (b : ℤ) (t : ℕ), t ≤ 18 →
          payoutAmount b t * 2 ^ t = b * (ether : ℤ) * 5 ^ t := by
  intro cfg m url tier n1 n2 se so hT hE
  constructor
  · cases se with
    | some e => rw [dispatch_fail_eq cfg m url tier n1 n2 e so hT hE]
    | none => rw [dispatch_success_eq cfg m url tier n1 n2 so hT hE]
  · intro b t ht
    exact payout_mul_pow b t ht

/-- Witness for the amended C3 at a concrete input. -/
theorem payout_exact_witness :
    (1 : ℕ) < 2 ∧ eligibleCheck (fun _ => none) "carol" 1 = true ∧
    (dispatch ⟨2, 1, 1440⟩ (fun _ => none) "carol" 1 1 2 none true).submitted
      = some (payoutAmount (truncFloat 1) 1)
    ∧ payoutAmount 1 1 * 2 ^ 1 = 1 * (ether : ℤ) * 5 ^ 1 :=
  ⟨by decide, by decide,
   (payout_exact ⟨2, 1, 1440⟩ (fun _ => none) "carol" 1 1 2 none true
     (by decide) (by decide)).1,
   (payout_exact ⟨2, 1, 1440⟩ (fun _ => none) "carol" 1 1 2 none true
     (by decide) (by decide)).2 1 1 (by decide)⟩

/-- C9 is false as stated: with base payout 1 and a configured range
containing tier 19, the truncated division makes the tier-19 to tier-18
ratio fall short of 5/2. -/
theorem payout_ratio_cex :
    payoutAmount 1 19 * 2 ≠ payoutAmount 1 18 * 5 := by decide

/-- C9 (amended): for `1 ≤ t ≤ 18`, consecutive payouts satisfy
`payout(t) * 2 = payout(t-1) * 5` for every integer base, and for a positive
base the ratio `payout(t) / payout(t-1)` equals exactly `5/2` as a rational.
At tier 19 the truncated division breaks the ratio. -/
theorem payout_ratio :
    ∀ (b : ℤ) (t : ℕ), 1 ≤ t → t ≤ 18 →
      payoutAmount b t * 2 = payoutAmount b (t - 1) * 5
      ∧ (1 ≤ b →
          (payoutAmount b t : ℚ) / (payoutAmount b (t - 1) : ℚ) = 5 / 2) := by
  intro b t h1 h18
  obtain ⟨k, rfl⟩ : ∃ k, t = k + 1 := ⟨t - 1, by omega⟩
  have hk18 : k ≤ 18 := by omega
  have e1 : payoutAmount b (k + 1) * 2 ^ (k + 1) = b * (ether : ℤ) * 5 ^ (k + 1) :=
    payout_mul_pow b (k + 1) h18
  have e0 : payoutAmount b k * 2 ^ k = b * (ether : ℤ) * 5 ^ k :=
    payout_mul_pow b k hk18
  have key : payoutAmount b (k + 1) * 2 = payoutAmount b k * 5 := by
    have h2 : (2 : ℤ) ^ k ≠ 0 := pow_ne_zero _ two_ne_zero
    apply mul_right_cancel₀ h2
    calc payoutAmount b (k + 1) * 2 * 2 ^ k
        = payoutAmount b (k + 1) * 2 ^ (k + 1) := by ring
      _ = b * (ether : ℤ) * 5 ^ (k + 1) := e1
      _ = b * (ether : ℤ) * 5 ^ k * 5 := by ring
      _ = payoutAmount b k * 2 ^ k * 5 := by rw [e0]
      _ = payoutAmount b k * 5 * 2 ^ k := by ring
  refine ⟨by simpa using key, fun hb => ?_⟩
  have hb0 : (0 : ℤ) < b := lt_of_lt_of_le zero_lt_one hb
  have hE : (0 : ℤ) < (ether : ℤ) := by norm_num [ether]
  have h5k : (0 : ℤ) < 5 ^ k := pow_pos (by norm_num) k
  have h2k : (0 : ℤ) < 2 ^ k := pow_pos (by norm_num) k
  have hbe : (0 : ℤ) < b * (ether : ℤ) * 5 ^ k := mul_pos (mul_pos hb0 hE) h5k
  have hpos : 0 < payoutAmount b k := by
    rcases lt_trichotomy (payoutAmount b k) 0 with h | h | h
    · exfalso
      have hneg : payoutAmount b k * 2 ^ k < 0 := mul_neg_of_neg_of_pos h h2k
      linarith [e0]
    · exfalso
      rw [h, zero_mul] at e0
      linarith [e0]
    · exact h
  have hq : ((payoutAmount b k : ℤ) : ℚ) ≠ 0 := by
    exact_mod_cast hpos.ne'
  have keyQ : ((payoutAmount b (k + 1) : ℤ) : ℚ) * 2
      = ((payoutAmount b k : ℤ) : ℚ) * 5 := by
    exact_mod_cast key
  rw [Nat.add_sub_cancel, div_eq_div_iff hq (by norm_num : (2 : ℚ) ≠ 0)]
  linarith [keyQ]

/-- Witness for the amended C9 at a concrete input. -/
theorem payout_ratio_witness :
    payoutAmount 1 1 * 2 = payoutAmount 1 (1 - 1) * 5
    ∧ (payoutAmount 1 1 : ℚ) / (payoutAmount 1 (1 - 1) : ℚ) = 5 / 2 :=
  ⟨(payout_ratio 1 1 (by decide) (by decide)).1,
   (payout_ratio 1 1 (by decide) (by decide)).2 (by decide)⟩

/-- C10: the submitted amount depends on the configured float base payout
only through its int64 truncation: two configurations agreeing on tier count
and cooldown whose base payouts truncate to the same integer submit the same
amount for every request. -/
theorem payout_trunc_only :
    ∀ (c1 c2 : Config) (m : Timeouts) (url : Ident) (tier : ℕ) (n1 n2 : Time)
      (se : Option String) (so : Bool),
      c1.tiers = c2.tiers → c1.minutes = c2.minutes →
      truncFloat c1.payoutF = truncFloat c2.payoutF →
      (dispatch c1 m url tier n1 n2 se so).submitted
        = (dispatch c2 m url tier n1 n2 se so).submitted := by
  intro c1 c2 m url tier n1 n2 se so ht hm hp
  obtain ⟨t1, p1, m1⟩ := c1
  obtain ⟨t2, p2, m2⟩ := c2
  obtain rfl : t1 = t2 := ht
  obtain rfl : m1 = m2 := hm
  by_cases hT : t1 ≤ tier
  · rw [dispatch_invalid_eq ⟨t1, p1, m1⟩ m url tier n1 n2 se so hT,
      dispatch_invalid_eq ⟨t1, p2, m1⟩ m url tier n1 n2 se so hT]
  · have hT' : tier < t1 := Nat.not_le.mp hT
    by_cases hE : eligibleCheck m url n1 = true
    · cases se with
      | some e =>
        rw [dispatch_fail_eq ⟨t1, p1, m1⟩ m url tier n1 n2 e so hT' hE,
          dispatch_fail_eq ⟨t1, p2, m1⟩ m url tier n1 n2 e so hT' hE]
        simp only [hp]
      | none =>
        rw [dispatch_success_eq ⟨t1, p1, m1⟩ m url tier n1 n2 so hT' hE,
          dispatch_success_eq ⟨t1, p2, m1⟩ m url tier n1 n2 so hT' hE]
        simp only [hp]
    · have hE' : eligibleCheck m url n1 = false := by simpa using hE
      rw [dispatch_ineligible_eq ⟨t1, p1, m1⟩ m url tier n1 n2 se so hT' hE',
        dispatch_ineligible_eq ⟨t1, p2, m1⟩ m url tier n1 n2 se so hT' hE']

/-- Witness for C10 at a concrete input: a configured base payout of one
half truncates to 0 and submits exactly what a base payout of 0 would —
the fractional part is silently discarded. -/
theorem payout_trunc_only_witness :
    truncFloat halfQ = truncFloat 0
    ∧ (dispatch ⟨2, halfQ, 1440⟩ (fun _ => none) "eve" 0 1 2 none true).submitted
      = (dispatch ⟨2, 0, 1440⟩ (fun _ => none) "eve" 0 1 2 none true).submitted :=
  ⟨by decide,
   payout_trunc_only ⟨2, halfQ, 1440⟩ ⟨2, 0, 1440⟩ (fun _ => none) "eve" 0 1 2 none true
     rfl rfl (by decide)⟩

end Faucet
